import Mathlib

/-!
Verification development for the simple-sqsd supervisor core (Go).

The Go source (package `supervisor`, plus `cmd/simplesqsd/simplesqsd.go`) is
shallowly embedded below: strings are `List Char`, byte slices are `List Nat`
(each element a byte value), machine words are `Nat` reduced modulo `2^32`
where Go's `uint32` would overflow, and effectful code is modelled by explicit
state passing and by event traces.
-/

namespace SimpleSqsd

/-! ## Bytes, words and hex encoding

Models of the Go standard library pieces used by the supervisor package:
`crypto/sha256`, `crypto/hmac`, `encoding/hex`, UTF-8 `[]byte(string)`
conversion, `strings.TrimRight` with cutset "/", and `strconv.Atoi`.
-/

/-- Reduce modulo `2^32`: the behaviour of Go `uint32` arithmetic. -/
def w32 (x : Nat) : Nat := x % 4294967296

/-- Rotate a 32-bit word right by `n` bits. -/
def rotr32 (n x : Nat) : Nat := w32 ((x >>> n) ||| (x <<< (32 - n)))

/-- SHA-256 Σ0. -/
def bigSigma0 (x : Nat) : Nat := (rotr32 2 x) ^^^ (rotr32 13 x) ^^^ (rotr32 22 x)

/-- SHA-256 Σ1. -/
def bigSigma1 (x : Nat) : Nat := (rotr32 6 x) ^^^ (rotr32 11 x) ^^^ (rotr32 25 x)

/-- SHA-256 σ0. -/
def smallSigma0 (x : Nat) : Nat := (rotr32 7 x) ^^^ (rotr32 18 x) ^^^ (x >>> 3)

/-- SHA-256 σ1. -/
def smallSigma1 (x : Nat) : Nat := (rotr32 17 x) ^^^ (rotr32 19 x) ^^^ (x >>> 10)

/-- SHA-256 Ch; complement of a 32-bit word is xor with `2^32 - 1`. -/
def ch (x y z : Nat) : Nat := (x &&& y) ^^^ ((x ^^^ 4294967295) &&& z)

/-- SHA-256 Maj. -/
def maj (x y z : Nat) : Nat := (x &&& y) ^^^ (x &&& z) ^^^ (y &&& z)

/-- The 64 SHA-256 round constants (FIPS 180-4 §4.2.2), written in
decimal. -/
def sha256K : List Nat :=
  [1116352408, 1899447441, 3049323471, 3921009573, 961987163, 1508970993,
   2453635748, 2870763221, 3624381080, 310598401, 607225278, 1426881987,
   1925078388, 2162078206, 2614888103, 3248222580, 3835390401, 4022224774,
   264347078, 604807628, 770255983, 1249150122, 1555081692, 1996064986,
   2554220882, 2821834349, 2952996808, 3210313671, 3336571891, 3584528711,
   113926993, 338241895, 666307205, 773529912, 1294757372, 1396182291,
   1695183700, 1986661051, 2177026350, 2456956037, 2730485921, 2820302411,
   3259730800, 3345764771, 3516065817, 3600352804, 4094571909, 275423344,
   430227734, 506948616, 659060556, 883997877, 958139571, 1322822218,
   1537002063, 1747873779, 1955562222, 2024104815, 2227730452, 2361852424,
   2428436474, 2756734187, 3204031479, 3329325298]

/-- The eight SHA-256 working variables. -/
structure Sha256State where
  a : Nat
  b : Nat
  c : Nat
  d : Nat
  e : Nat
  f : Nat
  g : Nat
  h : Nat
  deriving Repr, DecidableEq

/-- SHA-256 initial hash value (FIPS 180-4 §5.3.3), written in decimal. -/
def sha256Init : Sha256State :=
  ⟨1779033703, 3144134277, 1013904242, 2773480762,
   1359893119, 2600822924, 528734635, 1541459225⟩

/-- Big-endian interpretation of a byte list as one word. -/
def bytesToWordBE (bs : List Nat) : Nat := bs.foldl (fun acc b => acc * 256 + b) 0

/-- Big-endian serialisation of a 32-bit word into 4 bytes, as Go
`binary.BigEndian.PutUint32` (`byte(w >> k)` truncates modulo 256). -/
def toBytesBE4 (w : Nat) : List Nat :=
  [(w >>> 24) % 256, (w >>> 16) % 256, (w >>> 8) % 256, w % 256]

/-- The first 16 message-schedule words of one 64-byte block. -/
def blockWords (block : List Nat) : List Nat :=
  (List.range 16).map (fun i => bytesToWordBE ((block.drop (4 * i)).take 4))

/-- Extend 16 message-schedule words to 64. -/
def extendWords (ws : List Nat) : List Nat :=
  (List.range 48).foldl (fun acc j =>
    let i := 16 + j
    acc ++ [w32 (smallSigma1 (acc.getD (i - 2) 0) + acc.getD (i - 7) 0 +
                 smallSigma0 (acc.getD (i - 15) 0) + acc.getD (i - 16) 0)]) ws

/-- One SHA-256 round, consuming a pair (round constant, schedule word). -/
def roundStep (st : Sha256State) (kw : Nat × Nat) : Sha256State :=
  let t1 := w32 (st.h + bigSigma1 st.e + ch st.e st.f st.g + kw.1 + kw.2)
  let t2 := w32 (bigSigma0 st.a + maj st.a st.b st.c)
  ⟨w32 (t1 + t2), st.a, st.b, st.c, w32 (st.d + t1), st.e, st.f, st.g⟩

/-- SHA-256 compression of one 64-byte block into the running state. -/
def processBlock (st : Sha256State) (block : List Nat) : Sha256State :=
  let ws := extendWords (blockWords block)
  let r := (sha256K.zip ws).foldl roundStep st
  ⟨w32 (st.a + r.a), w32 (st.b + r.b), w32 (st.c + r.c), w32 (st.d + r.d),
   w32 (st.e + r.e), w32 (st.f + r.f), w32 (st.g + r.g), w32 (st.h + r.h)⟩

/-- SHA-256 padding: append 0x80, zeros to 56 mod 64, then the message bit
length as 8 big-endian bytes. -/
def padMessage (msg : List Nat) : List Nat :=
  let padZeros := (119 - msg.length % 64) % 64
  msg ++ [128] ++ List.replicate padZeros 0 ++
    (List.range 8).map (fun i => ((msg.length * 8) >>> (8 * (7 - i))) % 256)

/-- SHA-256 of a byte list; models Go `crypto/sha256.Sum256` /
`sha256.New().Sum`. -/
def sha256 (msg : List Nat) : List Nat :=
  let padded := padMessage msg
  let final := (List.range (padded.length / 64)).foldl
    (fun st i => processBlock st ((padded.drop (64 * i)).take 64)) sha256Init
  [final.a, final.b, final.c, final.d, final.e, final.f, final.g, final.h].flatMap toBytesBE4

/-- HMAC-SHA256 (RFC 2104, block size 64); models Go
`hmac.New(sha256.New, key)` followed by `Write` and `Sum`. -/
def hmacSha256 (key msg : List Nat) : List Nat :=
  let k0 := if 64 < key.length then sha256 key else key
  let kp := k0 ++ List.replicate (64 - k0.length) 0
  sha256 ((kp.map (fun b => b ^^^ 92)) ++ sha256 ((kp.map (fun b => b ^^^ 54)) ++ msg))

/-- Lower-case hexadecimal digit for a value below 16. -/
def hexDigit (n : Nat) : Char :=
  if n < 10 then Char.ofNat (48 + n) else Char.ofNat (87 + n)

/-- Lower-case hex encoding of a byte list; models Go
`hex.EncodeToString` (high nibble first). -/
def hexEncode (bs : List Nat) : List Char :=
  bs.flatMap (fun b => [hexDigit (b >>> 4), hexDigit (b &&& 15)])

/-- UTF-8 encoding of one character. -/
def utf8EncodeChar (c : Char) : List Nat :=
  let n := c.toNat
  if n < 128 then [n]
  else if n < 2048 then [192 ||| (n >>> 6), 128 ||| (n &&& 63)]
  else if n < 65536 then
    [224 ||| (n >>> 12), 128 ||| ((n >>> 6) &&& 63), 128 ||| (n &&& 63)]
  else
    [240 ||| (n >>> 18), 128 ||| ((n >>> 12) &&& 63), 128 ||| ((n >>> 6) &&& 63), 128 ||| (n &&& 63)]

/-- UTF-8 bytes of a string; models the Go conversion `[]byte(s)`. -/
def strToBytes (s : List Char) : List Nat := s.flatMap utf8EncodeChar

/-- Models Go `strings.TrimRight(s, "/")`: remove every trailing slash. -/
def trimRightSlash (s : List Char) : List Char :=
  (s.reverse.dropWhile (fun c => c = '/')).reverse

/-! ## The supervisor package

Shallow embedding of `supervisor.go` (src/unnamed/part_000): the worker
configuration, the supervisor state (the `sync.Once` flag, the spawned-worker
count tracked by the wait group, the package-level `signature` variable and
the shutdown flag), request construction, and the worker loop as an event
trace.
-/

/-- `getMac` (source lines 167-171): hex-encoded HMAC-SHA256 of the signature
string (UTF-8 bytes) under the secret key. -/
def getMac (signature : List Char) (secretKey : List Nat) : List Char :=
  hexEncode (hmacSha256 secretKey (strToBytes signature))

/-- `WorkerConfig` (source lines 35-44). -/
structure WorkerConfig where
  queueURL : List Char
  queueMaxMessages : Int
  queueWaitTime : Int
  secretKey : List Nat
  httpURL : List Char
  httpContentType : List Char
  deriving Repr, DecidableEq

/-- The signature string assigned by `Start` (source line 60):
`"POST " + strings.TrimRight(httpURL, "/") + "\n"`. -/
def mkSignature (httpURL : List Char) : List Char :=
  "POST ".toList ++ trimRightSlash httpURL ++ ['\n']

/-- Supervisor state (source lines 19-33): the immutable config, whether the
`startOnce` has fired, how many workers were spawned (the wait-group count),
the package-level `signature` variable, and the shutdown flag. -/
structure SupervisorState where
  workerConfig : WorkerConfig
  startOnceDone : Bool
  workersSpawned : Nat
  signature : List Char
  shutdown : Bool
  deriving Repr, DecidableEq

/-- `NewSupervisor` (source lines 50-57): zero values for the once, the
wait group, the global signature string and the shutdown flag. -/
def NewSupervisor (config : WorkerConfig) : SupervisorState :=
  { workerConfig := config, startOnceDone := false, workersSpawned := 0,
    signature := [], shutdown := false }

/-- `Start` (source lines 59-68): always reassign the package-level
signature string from the configured URL, then under `startOnce` add
`numWorkers` to the wait group and spawn that many workers (the Go
`for i := 0; i < n; i++` loop spawns `max n 0` of them). -/
def Start (s : SupervisorState) (numWorkers : Int) : SupervisorState :=
  let s1 := { s with signature := mkSignature s.workerConfig.httpURL }
  if s1.startOnceDone then s1
  else { s1 with startOnceDone := true,
                 workersSpawned := s1.workersSpawned + numWorkers.toNat }

/-- `Shutdown` (source lines 74-79): set the shared flag under the mutex. -/
def Shutdown (s : SupervisorState) : SupervisorState := { s with shutdown := true }

/-- Result of the Delivery Client call `httpClient.Do` (source line 153):
either a transport-level error or a response carrying a status code. -/
inductive DoResult where
  | transportError
  | response (statusCode : Nat)
  deriving Repr, DecidableEq

/-- Go `http.StatusOK`. -/
def statusOK : Nat := 200

/-- Go `http.StatusIMUsed`. -/
def statusIMUsed : Nat := 226

/-- Outcome of `httpRequest` (source lines 153-164) as a function of the
Delivery Client result: a transport error is an error; a response whose
status code is below `http.StatusOK` or above `http.StatusIMUsed` is an
error; any other response is success. -/
def httpRequest (doRes : DoResult) : Except (List Char) Unit :=
  match doRes with
  | .transportError => .error "Error while making HTTP request".toList
  | .response code =>
    if code < statusOK ∨ statusIMUsed < code then
      .error "Non-Success status code received".toList
    else .ok ()

/-- The headers `httpRequest` sets on the outgoing request (source lines
144-151): a MAC header iff the secret key is non-empty, a Content-Type
header iff the configured content type is non-empty. -/
def requestHeaders (config : WorkerConfig) (signature body : List Char) :
    List (List Char × List Char) :=
  (if 0 < config.secretKey.length then
    [("MAC".toList, getMac (signature ++ body) config.secretKey)]
   else []) ++
  (if 0 < config.httpContentType.length then
    [("Content-Type".toList, config.httpContentType)]
   else [])

/-- An SQS message as consumed by the worker (source lines 109-119). -/
structure QueueMessage where
  messageId : List Char
  receiptHandle : List Char
  body : List Char
  deriving Repr, DecidableEq

/-- A `sqs.DeleteMessageBatchRequestEntry` (source lines 116-119). -/
structure DeleteEntry where
  id : List Char
  receiptHandle : List Char
  deriving Repr, DecidableEq

/-- Observable calls a worker makes against the Queue Client and the
Delivery Client. -/
inductive WorkerEvent where
  | receiveCall (queueURL : List Char) (maxMessages waitTime : Int)
  | httpCall (body : List Char)
  | deleteBatchCall (queueURL : List Char) (entries : List DeleteEntry)
  deriving Repr, DecidableEq

/-- The dispatch loop (source lines 109-120): for each message in receipt
order make the HTTP request; on success append its (id, receiptHandle) to
the delete entries, on failure log and skip. Returns the HTTP events and
the delete entries, both in receipt order. -/
def dispatchLoop (deliver : QueueMessage → DoResult) :
    List QueueMessage → List WorkerEvent × List DeleteEntry
  | [] => ([], [])
  | msg :: rest =>
    let tail := dispatchLoop deliver rest
    match httpRequest (deliver msg) with
    | .error _ => (WorkerEvent.httpCall msg.body :: tail.1, tail.2)
    | .ok _ => (WorkerEvent.httpCall msg.body :: tail.1,
                ⟨msg.messageId, msg.receiptHandle⟩ :: tail.2)

/-- One poll cycle of the worker loop body (source lines 91-134), given the
receive outcome, the Delivery Client behaviour and the batch-delete outcome
(which the source only logs): receive; on receive error continue; on zero
messages continue; otherwise dispatch every message, and submit one batch
delete iff the delete-entry list is non-empty. -/
def workerCycle (config : WorkerConfig)
    (recv : Except (List Char) (List QueueMessage))
    (deliver : QueueMessage → DoResult)
    (_delRes : Except (List Char) Unit) : List WorkerEvent :=
  let recvEvent := WorkerEvent.receiveCall config.queueURL
    config.queueMaxMessages config.queueWaitTime
  match recv with
  | .error _ => [recvEvent]
  | .ok msgs =>
    if msgs.length = 0 then [recvEvent]
    else
      let dispatched := dispatchLoop deliver msgs
      if dispatched.2.length = 0 then recvEvent :: dispatched.1
      else recvEvent :: dispatched.1 ++
        [WorkerEvent.deleteBatchCall config.queueURL dispatched.2]

/-- Whether the worker loop returns or iterates again. -/
inductive LoopControl where
  | exitWorker
  | continueLoop
  deriving Repr, DecidableEq

/-- One full iteration of the worker `for` loop (source lines 86-135): the
shutdown flag is read once, at the top; if set the worker returns having
made no calls, otherwise it runs one complete poll cycle and loops. -/
def workerStep (config : WorkerConfig) (shutdownFlag : Bool)
    (recv : Except (List Char) (List QueueMessage))
    (deliver : QueueMessage → DoResult)
    (delRes : Except (List Char) Unit) : LoopControl × List WorkerEvent :=
  if shutdownFlag then (LoopControl.exitWorker, [])
  else (LoopControl.continueLoop, workerCycle config recv deliver delRes)

/-- The external behaviour one loop iteration runs against: the receive
outcome, the Delivery Client behaviour, and the batch-delete outcome. -/
structure CycleEnv where
  recv : Except (List Char) (List QueueMessage)
  deliver : QueueMessage → DoResult
  delRes : Except (List Char) Unit

/-- The events of iteration `n` of a worker whose shutdown-flag reads are
given by `flag` and whose environment at each iteration is given by `env`. -/
def iterEvents (config : WorkerConfig) (flag : Nat → Bool)
    (env : Nat → CycleEnv) (n : Nat) : List WorkerEvent :=
  (workerStep config (flag n) (env n).recv (env n).deliver (env n).delRes).2

/-- All events of the first `n` iterations of the worker loop. -/
def traceUpTo (config : WorkerConfig) (flag : Nat → Bool)
    (env : Nat → CycleEnv) (n : Nat) : List WorkerEvent :=
  (List.range n).flatMap (iterEvents config flag env)

/-- Delivery success for one message: `httpRequest` returned no error
(source lines 110-114). -/
def deliverySucceeds (deliver : QueueMessage → DoResult) (m : QueueMessage) : Bool :=
  match httpRequest (deliver m) with
  | .ok _ => true
  | .error _ => false

/-! ## The command entry point

Shallow embedding of the relevant parts of `cmd/simplesqsd/simplesqsd.go`:
environment parsing with defaults and the worker count handed to `Start`.
The environment is a partial map from variable names to values; Go
`os.Getenv` yields the empty string for an unset variable. -/

/-- Models Go `strconv.Atoi`: an optional sign followed by one or more
decimal digits, with the value required to fit a 64-bit signed integer;
anything else is an error. -/
def atoi (s : List Char) : Except Unit Int :=
  let body := match s with
    | '-' :: rest => rest
    | '+' :: rest => rest
    | _ => s
  let neg := match s with
    | '-' :: _ => true
    | _ => false
  if body = [] then Except.error ()
  else if body.all (fun c => '0' ≤ c && c ≤ '9') then
    let n : Nat := body.foldl (fun acc c => acc * 10 + (c.toNat - 48)) 0
    let v : Int := if neg then -(n : Int) else (n : Int)
    if v < -9223372036854775808 ∨ 9223372036854775807 < v then Except.error ()
    else Except.ok v
  else Except.error ()

/-- `getEnvInt` (cmd source lines 112-119): `strconv.Atoi(os.Getenv(key))`,
returning the default on any parse error and the parsed value otherwise. -/
def getEnvInt (env : List Char → Option (List Char)) (key : List Char)
    (defVal : Int) : Int :=
  match atoi ((env key).getD []) with
  | .error _ => defVal
  | .ok v => v

/-- The integer configuration `main` builds (cmd source lines 40-43). -/
structure MainIntConfig where
  queueMaxMessages : Int
  queueWaitTime : Int
  httpMaxConns : Int
  deriving Repr, DecidableEq

/-- The integer environment parsing in `main` (cmd source lines 40-43):
`SQSD_QUEUE_MAX_MSGS` default 10, `SQSD_QUEUE_WAIT_TIME` default 10,
`SQSD_HTTP_MAX_CONNS` default 50. -/
def mainIntConfig (env : List Char → Option (List Char)) : MainIntConfig :=
  { queueMaxMessages := getEnvInt env "SQSD_QUEUE_MAX_MSGS".toList 10,
    queueWaitTime := getEnvInt env "SQSD_QUEUE_WAIT_TIME".toList 10,
    httpMaxConns := getEnvInt env "SQSD_HTTP_MAX_CONNS".toList 50 }

/-- The worker count `main` passes to `Start` (cmd source line 108):
`c.HTTPMaxConns`. -/
def mainWorkerCount (env : List Char → Option (List Char)) : Int :=
  (mainIntConfig env).httpMaxConns

/-- The MAC header value attached to an outgoing request for a message body,
once `Start` has set the signature string from the configured URL (source
lines 60 and 144-147): `getMac(signature + body, secretKey)`. -/
def emittedMac (url body : List Char) (secretKey : List Nat) : List Char :=
  getMac (mkSignature url ++ body) secretKey

/-- Modelled from the spec (§3 and §4.3): the lower-case hex encoding of
HMAC-SHA256 with key `secretKey` over the canonical string
`"POST " + rightTrim(url, "/") + "\n" + body`, written without reference to
`getMac` or `mkSignature`, for comparison with the source-side value. -/
def specSign (url body : List Char) (secretKey : List Nat) : List Char :=
  hexEncode (hmacSha256 secretKey
    (strToBytes ("POST ".toList ++ trimRightSlash url ++ '\n' :: body)))

/-- A concrete configuration with a non-empty secret key, used to
instantiate theorems with hypotheses. -/
def sampleConfigKeyed : WorkerConfig :=
  { queueURL := "q".toList, queueMaxMessages := 10, queueWaitTime := 10,
    secretKey := [115, 51, 99, 114, 51, 116], httpURL := "https://example.com/hook/".toList,
    httpContentType := [] }

/-- A concrete configuration with an empty secret key. -/
def sampleConfigNoKey : WorkerConfig :=
  { queueURL := "q".toList, queueMaxMessages := 10, queueWaitTime := 10,
    secretKey := [], httpURL := "https://example.com/hook".toList,
    httpContentType := "application/json".toList }

/-- A concrete per-iteration environment: receive always errors, delivery
always hits a transport error, deletes succeed. -/
def sampleEnv : Nat → CycleEnv :=
  fun _ => { recv := Except.error [], deliver := fun _ => DoResult.transportError,
             delRes := Except.ok () }

/-! ## Helper lemmas -/

theorem toBytesBE4_length (w : Nat) : (toBytesBE4 w).length = 4 := rfl

theorem toBytesBE4_lt (w : Nat) : ∀ b ∈ toBytesBE4 w, b < 256 := by
  intro b hb
  simp only [toBytesBE4, List.mem_cons, List.not_mem_nil, or_false] at hb
  rcases hb with rfl | rfl | rfl | rfl <;> exact Nat.mod_lt _ (by norm_num)

theorem sha256_length (msg : List Nat) : (sha256 msg).length = 32 := by
  simp [sha256, toBytesBE4_length]

theorem sha256_byte_lt (msg : List Nat) : ∀ b ∈ sha256 msg, b < 256 := by
  intro b hb
  simp only [sha256, List.mem_flatMap, List.mem_cons, List.not_mem_nil, or_false] at hb
  obtain ⟨w, _, hw⟩ := hb
  exact toBytesBE4_lt w b hw

theorem hmacSha256_length (key msg : List Nat) : (hmacSha256 key msg).length = 32 := by
  unfold hmacSha256
  exact sha256_length _

theorem hmacSha256_byte_lt (key msg : List Nat) : ∀ b ∈ hmacSha256 key msg, b < 256 := by
  unfold hmacSha256
  exact sha256_byte_lt _

theorem hexEncode_length (bs : List Nat) : (hexEncode bs).length = 2 * bs.length := by
  induction bs with
  | nil => rfl
  | cons b rest ih => simp [hexEncode, List.flatMap_cons] at ih ⊢; omega

theorem hexDigit_mem_lower (n : Nat) (h : n < 16) :
    hexDigit n ∈ "0123456789abcdef".toList := by
  interval_cases n <;> decide

theorem hexEncode_mem (bs : List Nat) (hbs : ∀ b ∈ bs, b < 256) :
    ∀ c ∈ hexEncode bs, c ∈ "0123456789abcdef".toList := by
  intro c hc
  simp only [hexEncode, List.mem_flatMap, List.mem_cons, List.not_mem_nil, or_false] at hc
  obtain ⟨b, hb, hcb⟩ := hc
  have hblt : b < 256 := hbs b hb
  have h1 : b >>> 4 < 16 := by
    rw [Nat.shiftRight_eq_div_pow]
    omega
  have h2 : b &&& 15 < 16 := Nat.and_lt_two_pow b (by norm_num : (15 : Nat) < 2 ^ 4)
  rcases hcb with rfl | rfl
  · exact hexDigit_mem_lower _ h1
  · exact hexDigit_mem_lower _ h2

theorem dropWhile_replicate_append {p : Char → Bool} {c : Char} (hc : p c = true)
    (n : Nat) (l : List Char) :
    List.dropWhile p (List.replicate n c ++ l) = List.dropWhile p l := by
  induction n with
  | zero => simp
  | succ m ih => simp [List.replicate_succ, List.dropWhile_cons, hc, ih]

theorem trimRightSlash_append_slashes (u : List Char) (n : Nat) :
    trimRightSlash (u ++ List.replicate n '/') = trimRightSlash u := by
  simp only [trimRightSlash, List.reverse_append, List.reverse_replicate]
  rw [dropWhile_replicate_append (by decide)]

theorem dispatchLoop_eq (deliver : QueueMessage → DoResult) (msgs : List QueueMessage) :
    dispatchLoop deliver msgs =
      (msgs.map (fun m => WorkerEvent.httpCall m.body),
       (msgs.filter (deliverySucceeds deliver)).map
         (fun m => DeleteEntry.mk m.messageId m.receiptHandle)) := by
  induction msgs with
  | nil => rfl
  | cons msg rest ih =>
    simp only [dispatchLoop, ih, List.map_cons, List.filter_cons]
    cases h : httpRequest (deliver msg) with
    | ok v => simp [deliverySucceeds, h]
    | error e => simp [deliverySucceeds, h]

theorem Start_fixed (s : SupervisorState) (n : Int)
    (h1 : s.startOnceDone = true)
    (h2 : s.signature = mkSignature s.workerConfig.httpURL) : Start s n = s := by
  simp only [Start, h1, if_true]
  rw [← h2, ← h1]

theorem foldl_Start_fixed (ns : List Int) (s : SupervisorState)
    (h1 : s.startOnceDone = true)
    (h2 : s.signature = mkSignature s.workerConfig.httpURL) :
    ns.foldl Start s = s := by
  induction ns with
  | nil => rfl
  | cons n rest ih => rw [List.foldl_cons, Start_fixed s n h1 h2]; exact ih

theorem Start_once (s : SupervisorState) (n : Int) :
    (Start s n).startOnceDone = true := by
  simp only [Start]
  split
  · rename_i h; exact h
  · rfl

theorem Start_signature_eq (s : SupervisorState) (n : Int) :
    (Start s n).signature = mkSignature (Start s n).workerConfig.httpURL := by
  simp only [Start]
  split <;> rfl

set_option maxRecDepth 40000 in
/-- The SHA-256 model matches the FIPS 180-4 test vector for the empty
message. -/
theorem sha256_empty_vector :
    hexEncode (sha256 []) =
      "e3b0c44298fc1c149afbf4c8996fb92427ae41e4649b934ca495991b7852b855".toList := by
  rfl

set_option maxRecDepth 40000 in
/-- The SHA-256 model matches the FIPS 180-4 test vector for "abc". -/
theorem sha256_abc_vector :
    hexEncode (sha256 (strToBytes "abc".toList)) =
      "ba7816bf8f01cfea414140de5dae2223b00361a396177a9cb410ff61f20015ad".toList := by
  rfl

set_option maxRecDepth 200000 in
/-- The HMAC-SHA256 model matches the classic reference vector with key
"key" over the quick-brown-fox message. -/
theorem hmacSha256_reference_vector :
    hexEncode (hmacSha256 (strToBytes "key".toList)
      (strToBytes "The quick brown fox jumps over the lazy dog".toList)) =
      "f7bc83f430538424b13298e6aa6fb143ef4d59a14946175997479dbc2d1a3cd8".toList := by
  rfl

set_option maxRecDepth 200000 in
/-- The spec's concrete scenario (§8): secret key "s3cr3t", target URL
"https://example.com/hook/" and body "payload" produce the independently
computed HMAC-SHA256 digest of "POST https://example.com/hook\npayload". -/
theorem emittedMac_reference_vector :
    emittedMac "https://example.com/hook/".toList "payload".toList
      (strToBytes "s3cr3t".toList) =
      "3a594549a081bc73160201683d8a596b28a0f96d9485071a13af6a01f1164fc7".toList := by
  rfl

/-! ## The claims -/

/-- C1: `httpRequest` returns an error iff the send fails at the transport
level or the status code lies outside the inclusive range [200, 226]; every
status in [200, 226] succeeds, and 199 and 227 in particular fail. -/
theorem c1_http_success_iff_status_in_range (r : DoResult) :
    (httpRequest r = Except.ok () ↔
      ∃ c, r = DoResult.response c ∧ statusOK ≤ c ∧ c ≤ statusIMUsed) ∧
    httpRequest (DoResult.response 199) ≠ Except.ok () ∧
    httpRequest (DoResult.response 227) ≠ Except.ok () ∧
    httpRequest (DoResult.response 200) = Except.ok () ∧
    httpRequest (DoResult.response 226) = Except.ok () ∧
    httpRequest DoResult.transportError ≠ Except.ok () := by
  refine ⟨?_, by simp [httpRequest, statusOK, statusIMUsed],
    by simp [httpRequest, statusOK, statusIMUsed],
    by simp [httpRequest, statusOK, statusIMUsed],
    by simp [httpRequest, statusOK, statusIMUsed],
    by simp [httpRequest]⟩
  cases r with
  | transportError =>
    simp [httpRequest]
  | response code =>
    simp only [httpRequest, statusOK, statusIMUsed]
    constructor
    · intro hok
      split at hok
      · simp at hok
      · rename_i h
        exact ⟨code, rfl, by omega, by omega⟩
    · rintro ⟨c, hc, h1, h2⟩
      injection hc with hc
      subst hc
      rw [if_neg (by omega)]

/-- C2: the emitted MAC header value equals the lower-case hex encoding of
HMAC-SHA256 with key `secretKey` over the canonical string
`"POST " + rightTrim(url, "/") + "\n" + body`; the tag is always exactly 64
hex characters, every character a lower-case hex digit, and identical
inputs yield the identical tag. -/
theorem c2_mac_is_hmac_of_canonical (url body : List Char) (key : List Nat)
    (hkey : key ≠ []) :
    emittedMac url body key = specSign url body key ∧
    (emittedMac url body key).length = 64 ∧
    (∀ c ∈ emittedMac url body key, c ∈ "0123456789abcdef".toList) ∧
    (∀ url2 body2 key2, url = url2 → body = body2 → key = key2 →
      emittedMac url body key = emittedMac url2 body2 key2) := by
  refine ⟨?_, ?_, ?_, ?_⟩
  · simp [emittedMac, specSign, getMac, mkSignature, List.append_assoc]
  · simp only [emittedMac, getMac]
    rw [hexEncode_length, hmacSha256_length]
  · simp only [emittedMac, getMac]
    exact hexEncode_mem _ (hmacSha256_byte_lt _ _)
  · rintro url2 body2 key2 rfl rfl rfl
    rfl

/-- Witness for C2 at the spec's concrete scenario (§8): secret key
"s3cr3t", URL "https://example.com/hook/", body "payload". -/
theorem c2_mac_is_hmac_of_canonical_witness :
    (emittedMac "https://example.com/hook/".toList "payload".toList
      [115, 51, 99, 114, 51, 116]).length = 64 :=
  (c2_mac_is_hmac_of_canonical "https://example.com/hook/".toList
    "payload".toList [115, 51, 99, 114, 51, 116] (by decide)).2.1

/-- C3: one poll cycle with received messages `msgs` performs the receive,
then one HTTP dispatch per message in receipt order, then exactly one batch
delete carrying exactly the (id, receiptHandle) pairs of the messages whose
delivery succeeded, in receipt order, after all dispatches — and the batch
delete is skipped entirely when no delivery succeeded. -/
theorem c3_cycle_dispatch_then_delete (config : WorkerConfig)
    (deliver : QueueMessage → DoResult) (delRes : Except (List Char) Unit)
    (msgs : List QueueMessage) :
    workerCycle config (Except.ok msgs) deliver delRes =
      WorkerEvent.receiveCall config.queueURL config.queueMaxMessages
          config.queueWaitTime ::
        (msgs.map (fun m => WorkerEvent.httpCall m.body) ++
          (if msgs.filter (deliverySucceeds deliver) = [] then []
           else [WorkerEvent.deleteBatchCall config.queueURL
             ((msgs.filter (deliverySucceeds deliver)).map
               (fun m => DeleteEntry.mk m.messageId m.receiptHandle))])) := by
  simp only [workerCycle, dispatchLoop_eq]
  by_cases hnil : msgs = []
  · subst hnil
    simp
  · have hlen : ¬ msgs.length = 0 := by
      simpa [List.length_eq_zero] using hnil
    rw [if_neg hlen]
    by_cases hf : msgs.filter (deliverySucceeds deliver) = []
    · simp [hf]
    · have hflen : ¬ ((msgs.filter (deliverySucceeds deliver)).map
          (fun m => DeleteEntry.mk m.messageId m.receiptHandle)).length = 0 := by
        simp [List.length_eq_zero, hf]
      rw [if_neg hflen, if_neg hf]
      simp

/-- C4: Start is idempotent: a second Start is a complete no-op whatever
count it is passed, and after the first Start of a fresh Supervisor with
n1 ≥ 0 workers, any further sequence of Start calls leaves exactly n1
workers spawned. -/
theorem c4_start_idempotent (config : WorkerConfig) (s : SupervisorState)
    (n1 n2 : Int) (ns : List Int) (hpos : 0 ≤ n1) :
    Start (Start s n1) n2 = Start s n1 ∧
    ((ns.foldl Start (Start (NewSupervisor config) n1)).workersSpawned : Int) = n1 := by
  constructor
  · exact Start_fixed _ _ (Start_once s n1) (Start_signature_eq s n1)
  · rw [foldl_Start_fixed ns _ (Start_once _ _) (Start_signature_eq _ _)]
    have hw : (Start (NewSupervisor config) n1).workersSpawned = n1.toNat := by
      simp [Start, NewSupervisor]
    rw [hw, Int.toNat_of_nonneg hpos]

/-- Witness for C4: first Start spawns 3 workers; later Starts with other
counts change nothing. -/
theorem c4_start_idempotent_witness :
    Start (Start (NewSupervisor sampleConfigKeyed) 3) 5 =
        Start (NewSupervisor sampleConfigKeyed) 3 ∧
    (([7, 2].foldl Start (Start (NewSupervisor sampleConfigKeyed) 3)).workersSpawned : Int) = 3 :=
  c4_start_idempotent sampleConfigKeyed (NewSupervisor sampleConfigKeyed) 3 5 [7, 2] (by decide)

/-- C5: Shutdown sets the shared flag; a worker reads the flag only at the
top of an iteration, so once the flag is set (and stays set) every
iteration from that point on exits with no further queue or HTTP calls,
the whole trace is frozen, and any iteration that saw the flag unset runs
its complete receive/dispatch/delete cycle. -/
theorem c5_shutdown_cooperative (config : WorkerConfig) (flag : Nat → Bool)
    (env : Nat → CycleEnv) (k : Nat)
    (hmono : ∀ n, flag n = true → flag (n + 1) = true)
    (hk : flag k = true) :
    (∀ s, (Shutdown s).shutdown = true) ∧
    (∀ m, k ≤ m →
      (workerStep config (flag m) (env m).recv (env m).deliver (env m).delRes).1 =
          LoopControl.exitWorker ∧
        iterEvents config flag env m = []) ∧
    (∀ j, traceUpTo config flag env (k + j) = traceUpTo config flag env k) ∧
    (∀ m, flag m = false →
      iterEvents config flag env m =
        workerCycle config (env m).recv (env m).deliver (env m).delRes) := by
  have hflagAdd : ∀ j, flag (k + j) = true := by
    intro j
    induction j with
    | zero => exact hk
    | succ i ih => exact hmono _ ih
  have hflag : ∀ m, k ≤ m → flag m = true := by
    intro m hm
    have h := hflagAdd (m - k)
    rwa [Nat.add_sub_cancel' hm] at h
  refine ⟨fun s => rfl, ?_, ?_, ?_⟩
  · intro m hm
    have h := hflag m hm
    constructor
    · simp [workerStep, h]
    · simp [iterEvents, workerStep, h]
  · intro j
    induction j with
    | zero => rfl
    | succ i ih =>
      have h1 : flag (k + i) = true := hflagAdd i
      have hsplit : traceUpTo config flag env (k + (i + 1)) =
          traceUpTo config flag env (k + i) ++ iterEvents config flag env (k + i) := by
        rw [traceUpTo, traceUpTo, show k + (i + 1) = (k + i) + 1 from rfl,
          List.range_succ, List.flatMap_append]
        simp
      rw [hsplit]
      have hempty : iterEvents config flag env (k + i) = [] := by
        simp [iterEvents, workerStep, h1]
      rw [hempty, List.append_nil]
      exact ih
  · intro m hm
    simp [iterEvents, workerStep, hm]

/-- Witness for C5: with the flag set from iteration 0 on, iteration 5
makes no calls. -/
theorem c5_shutdown_cooperative_witness :
    iterEvents sampleConfigKeyed (fun _ => true) sampleEnv 5 = [] :=
  ((c5_shutdown_cooperative sampleConfigKeyed (fun _ => true) sampleEnv 0
    (fun _ h => h) rfl).2.1 5 (Nat.zero_le 5)).2

/-- C6: with an empty secret key no MAC header is attached to the outgoing
request; with a non-empty key the MAC header is always attached, carrying
`getMac(signature + body, key)`. -/
theorem c6_mac_header_iff_key (config : WorkerConfig) (signature body : List Char) :
    (config.secretKey = [] →
      ∀ v, ("MAC".toList, v) ∉ requestHeaders config signature body) ∧
    (config.secretKey ≠ [] →
      ("MAC".toList, getMac (signature ++ body) config.secretKey) ∈
        requestHeaders config signature body) := by
  constructor
  · intro hk v hv
    by_cases hct : 0 < config.httpContentType.length
    · simp only [requestHeaders, hk, List.length_nil, Nat.lt_irrefl, if_false,
        List.nil_append, if_pos hct, List.mem_singleton, Prod.mk.injEq] at hv
      exact absurd hv.1 (by decide)
    · simp only [requestHeaders, hk, List.length_nil, Nat.lt_irrefl, if_false,
        List.nil_append, if_neg hct] at hv
      exact List.not_mem_nil _ hv
  · intro hk
    have hlen : 0 < config.secretKey.length := List.length_pos.mpr hk
    simp [requestHeaders, hlen]

/-- Witness for C6: the keyed sample config gets the MAC header, the
keyless one does not. -/
theorem c6_mac_header_iff_key_witness :
    ("MAC".toList, getMac ("s".toList ++ "b".toList) sampleConfigKeyed.secretKey) ∈
      requestHeaders sampleConfigKeyed "s".toList "b".toList ∧
    ("MAC".toList, "v".toList) ∉ requestHeaders sampleConfigNoKey "s".toList "b".toList :=
  ⟨(c6_mac_header_iff_key sampleConfigKeyed "s".toList "b".toList).2 (by decide),
   (c6_mac_header_iff_key sampleConfigNoKey "s".toList "b".toList).1 rfl "v".toList⟩

/-- C7: a successful receive with zero messages performs no HTTP call and
no delete call in that iteration, and the loop continues (back to the
shutdown check). -/
theorem c7_zero_messages_no_calls (config : WorkerConfig)
    (deliver : QueueMessage → DoResult) (delRes : Except (List Char) Unit) :
    workerCycle config (Except.ok []) deliver delRes =
      [WorkerEvent.receiveCall config.queueURL config.queueMaxMessages
        config.queueWaitTime] ∧
    workerStep config false (Except.ok []) deliver delRes =
      (LoopControl.continueLoop,
       [WorkerEvent.receiveCall config.queueURL config.queueMaxMessages
         config.queueWaitTime]) :=
  ⟨rfl, rfl⟩

/-- C8: no expected failure terminates the loop: with the flag unset the
iteration always continues, the only exit is the shutdown flag, a receive
error restarts the loop immediately having made no dispatch or delete
call, and the batch-delete outcome has no effect on the cycle (logged
only, no retry). -/
theorem c8_errors_never_terminate (config : WorkerConfig) (b : Bool)
    (recv : Except (List Char) (List QueueMessage))
    (deliver : QueueMessage → DoResult)
    (delRes d1 d2 : Except (List Char) Unit) (e : List Char) :
    (workerStep config false recv deliver delRes).1 = LoopControl.continueLoop ∧
    ((workerStep config b recv deliver delRes).1 = LoopControl.exitWorker ↔ b = true) ∧
    workerCycle config (Except.error e) deliver delRes =
      [WorkerEvent.receiveCall config.queueURL config.queueMaxMessages
        config.queueWaitTime] ∧
    workerCycle config recv deliver d1 = workerCycle config recv deliver d2 := by
  refine ⟨rfl, ?_, rfl, rfl⟩
  cases b <;> simp [workerStep]

/-- C9: the MAC tag is insensitive to trailing slashes in the configured
URL: appending any number of '/' characters to the URL leaves the tag
unchanged, because the canonical string strips all trailing slashes. -/
theorem c9_trailing_slash_insensitive (url body : List Char) (key : List Nat)
    (hkey : key ≠ []) (n : Nat) :
    emittedMac (url ++ List.replicate n '/') body key = emittedMac url body key := by
  simp [emittedMac, getMac, mkSignature, trimRightSlash_append_slashes]

/-- Witness for C9: three extra slashes leave the tag unchanged. -/
theorem c9_trailing_slash_insensitive_witness :
    emittedMac ("https://example.com/hook".toList ++ List.replicate 3 '/')
        "payload".toList [1, 2] =
      emittedMac "https://example.com/hook".toList "payload".toList [1, 2] :=
  c9_trailing_slash_insensitive "https://example.com/hook".toList
    "payload".toList [1, 2] (by decide) 3

/-- C10: `getEnvInt` returns the default when the variable is unset, empty
or not Atoi-parseable, and otherwise the parsed value unchanged — zero and
negative values included — and the worker count `main` passes to `Start`
is exactly `SQSD_HTTP_MAX_CONNS` with default 50. -/
theorem c10_getenvint_defaults (env : List Char → Option (List Char))
    (key : List Char) (defVal : Int) :
    (env key = none → getEnvInt env key defVal = defVal) ∧
    (env key = some [] → getEnvInt env key defVal = defVal) ∧
    (∀ s, env key = some s → atoi s = Except.error () →
      getEnvInt env key defVal = defVal) ∧
    (∀ s v, env key = some s → atoi s = Except.ok v →
      getEnvInt env key defVal = v) ∧
    atoi "0".toList = Except.ok 0 ∧
    atoi ("-7".toList) = Except.ok (-7) ∧
    atoi [] = Except.error () ∧
    atoi "abc".toList = Except.error () ∧
    mainWorkerCount env = getEnvInt env ("SQSD_HTTP_MAX_CONNS".toList) 50 ∧
    (env ("SQSD_HTTP_MAX_CONNS".toList) = none → mainWorkerCount env = 50) := by
  refine ⟨?_, ?_, ?_, ?_, rfl, rfl, rfl, rfl, rfl, ?_⟩
  · intro h
    simp [getEnvInt, h, atoi]
  · intro h
    simp [getEnvInt, h, atoi]
  · intro s hs ha
    simp [getEnvInt, hs, ha]
  · intro s v hs ha
    simp [getEnvInt, hs, ha]
  · intro h
    show getEnvInt env ("SQSD_HTTP_MAX_CONNS".toList) 50 = 50
    simp only [getEnvInt, h, Option.getD_none]
    rfl

/-- Witness for C10: with an empty environment every lookup yields its
default, and 50 workers are started. -/
theorem c10_getenvint_defaults_witness :
    getEnvInt (fun _ => none) "X".toList 7 = 7 ∧
    mainWorkerCount (fun _ => none) = 50 :=
  ⟨(c10_getenvint_defaults (fun _ => none) "X".toList 7).1 rfl,
   (c10_getenvint_defaults (fun _ => none) "X".toList 7).2.2.2.2.2.2.2.2.2 rfl⟩

end SimpleSqsd

